import Mathlib

/-!
# Verification of the lemoneval test-graph scoring engine

Shallow embedding of the core of the `lemoneval` repository:

* `src/lemoneval/core/graph.py` — the node model (`ConstantNode`,
  `OperatorNode`, `TernaryIfNode`, `LotteryNode`, `AnswerOnlyTestNode`,
  `ProgramTestNode`) and the composition helpers (`chains`, `node_sum`,
  `node_max`, `node_min`);
* `src/lemoneval/core/result.py` — the `Result` evaluator
  (`Result.__init__`, `Result.process`, `Result.__getitem__`,
  `NodeResult` with its completed-guarded setters);
* `src/lemoneval/files/graph.py`, `src/lemoneval/files/sandbox.py`,
  `src/lemoneval/files/checker.py` — the sandboxed file-based program test
  and the checker strategies.

Python object references are modelled as indices into a node store
(`List (NodeSpec V)`); the same index used by several parents is the same
shared node.  Python numbers are modelled as `Rat`, raised exceptions as
`Except` errors, the random generator as a stream `Nat → Rat` consumed at
an explicit cursor.  Recursion of `Result.process` is driven by a fuel
parameter; fuel exhaustion is a distinguished error, so any `.ok` result
is a genuinely terminating run of the Python code.
-/

namespace Lemoneval

/-- Errors corresponding to Python exceptions raised by the core engine.
`cycleError` is the `ValueError("test graph should not contain cycles")`
of `Result.process`; `keyError` the `KeyError` of `Result.__getitem__`
(and of direct dict access); `typeError` a Python `TypeError` (e.g.
`max()` applied to no arguments); `attributeError` the
`AttributeError("modifying evaluated node not allowed")` of the
`NodeResult` setters.  `outOfFuel` is a modelling artifact marking that
the fuel budget, not the Python program, stopped the run. -/
inductive EvalError where
  | cycleError
  | keyError
  | typeError
  | attributeError
  | outOfFuel
  deriving DecidableEq, Repr

/-- The operator functions that the repository passes to `OperatorNode`:
`operator.add` (from `BaseNode.__add__`), the `lambda *exp: sum(exp)` of
`node_sum`, and the builtins `max` / `min` of `node_max` / `node_min`. -/
inductive OpKind where
  | add
  | sumOp
  | maxOp
  | minOp
  deriving DecidableEq, Repr

/-- `max` of a nonempty list of scores (Python `max(a, b, ...)`). -/
def listMax : Int → List Int → Int
  | x, [] => x
  | x, y :: ys => listMax (max x y) ys

/-- `min` of a nonempty list of scores (Python `min(a, b, ...)`). -/
def listMin : Int → List Int → Int
  | x, [] => x
  | x, y :: ys => listMin (min x y) ys

/-- Applying an operator function to the list of operand scores,
`self.op(*subscores)` in `OperatorNode.evaluate`.
`operator.add` takes exactly two arguments; `sum(exp)` accepts any tuple
(including the empty one, giving `0`); `max()` / `min()` with no
arguments raise `TypeError`, and with a single numeric argument also
raise `TypeError` (a number is not iterable). -/
def applyOp : OpKind → List Int → Except EvalError Int
  | .add, [a, b] => .ok (a + b)
  | .add, _ => .error .typeError
  | .sumOp, l => .ok l.sum
  | .maxOp, x :: y :: ys => .ok (listMax (max x y) ys)
  | .maxOp, _ => .error .typeError
  | .minOp, x :: y :: ys => .ok (listMin (min x y) ys)
  | .minOp, _ => .error .typeError

/-- A value stored in the external `data` dictionary: either a plain
answer (looked up by `AnswerOnlyTestNode`) or a callable program
(looked up by `ProgramTestNode`); a program returning `none` models the
callable raising an exception (caught by the bare `except:`). -/
inductive DataVal (V : Type) where
  | answer (v : V)
  | program (f : V → Option V)

/-- The external data dictionary of a `Result`. -/
def Data (V : Type) : Type := String → Option (DataVal V)

/-- The node variants of `src/lemoneval/core/graph.py`.  Operands are
indices into the node store; `operatorN` carries the operator function
and the `operand` list built by `OperatorNode.__init__`. -/
inductive NodeSpec (V : Type) where
  | constant (full_score : Int)
  | operatorN (op : OpKind) (operand : List Nat)
  | ternaryIf (if_expr then_expr else_expr : Nat)
  | lottery (full_score : Int) (threshold : Rat)
  | answerOnlyTest (full_score : Int) (answer_id : String) (pred : V → Bool)
  | programTest (full_score : Int) (program_id : String) (test_input : V)
      (pred : V → Bool)

/-- A diagnostic message value stored in `NodeResult.messages`. -/
inductive Msg (V : Type) where
  | text (s : String)
  | sampleVal (q : Rat)
  | answerVal (d : DataVal V)
  | outputVal (v : V)

/-- `NodeResult`: per-node outcome record.  `completed` is the
`_completed` flag; `success` and `score` start at `0`. -/
structure NodeResult (V : Type) where
  completed : Bool
  success : Int
  score : Int
  messages : List (String × Msg V)

/-- A fresh `NodeResult(self, node)` placeholder. -/
def freshNodeResult (V : Type) : NodeResult V := ⟨false, 0, 0, []⟩

/-- The evaluation environment of one `Result`: the node store (object
graph), the external `data` dictionary, and the random stream backing
`random.random()`. -/
structure Env (V : Type) where
  store : List (NodeSpec V)
  data : Data V
  rand : Nat → Rat

/-- The mutable state of a `Result`: `_processed_nodes` as an
association list in insertion order, the order in which node
`evaluate` methods were entered (one entry per `Result.process` body
run), and the cursor into the random stream. -/
structure EvalState (V : Type) where
  processed : List (Nat × NodeResult V)
  trace : List Nat
  rng : Nat

/-- `node in self._processed_nodes` / `self._processed_nodes[node]`. -/
def lookupNR (s : EvalState V) (id : Nat) : Option (NodeResult V) :=
  (s.processed.find? (fun p => p.1 == id)).map (fun p => p.2)

/-- Update the `NodeResult` stored for `id` in place. -/
def updateNR (s : EvalState V) (id : Nat) (f : NodeResult V → NodeResult V) :
    EvalState V :=
  { s with processed :=
      s.processed.map (fun p => if p.1 = id then (p.1, f p.2) else p) }

/-- The `success` setter of `NodeResult`: rejects mutation of a
completed node with `AttributeError`. -/
def setSuccess (s : EvalState V) (id : Nat) (v : Int) :
    Except EvalError (EvalState V) :=
  match lookupNR s id with
  | none => .error .keyError
  | some r =>
    if r.completed then .error .attributeError
    else .ok (updateNR s id (fun r => { r with success := v }))

/-- The `score` setter of `NodeResult`: rejects mutation of a completed
node with `AttributeError`. -/
def setScore (s : EvalState V) (id : Nat) (v : Int) :
    Except EvalError (EvalState V) :=
  match lookupNR s id with
  | none => .error .keyError
  | some r =>
    if r.completed then .error .attributeError
    else .ok (updateNR s id (fun r => { r with score := v }))

/-- Dictionary write `messages[key] = m` (plain attribute, no
completed-guard in the Python source). -/
def msgInsert (ms : List (String × Msg V)) (k : String) (m : Msg V) :
    List (String × Msg V) :=
  if ms.any (fun p => p.1 == k) then
    ms.map (fun p => if p.1 = k then (p.1, m) else p)
  else ms ++ [(k, m)]

/-- `result[self].messages[key] = m`. -/
def setMessage (s : EvalState V) (id : Nat) (k : String) (m : Msg V) :
    EvalState V :=
  updateNR s id (fun r => { r with messages := msgInsert r.messages k m })

/-- `self._processed_nodes[node]._completed = True`. -/
def markCompleted (s : EvalState V) (id : Nat) : EvalState V :=
  updateNR s id (fun r => { r with completed := true })

/-- Python truthiness of a score: `if result[...].score:`. -/
def pyTruthy (q : Int) : Bool := decide (q ≠ 0)

/-- Applying a stored predicate to the raw data value: equality and
callable predicates receive the dictionary entry itself; applying a
predicate built from `==` to a callable program value yields `False`. -/
def predHolds (p : V → Bool) : DataVal V → Bool
  | .answer a => p a
  | .program _ => false

/-- Calling the looked-up program on `self.test_input`
(`program(self.test_input)` under the bare `except:`): a non-callable
data value raises `TypeError`, which the bare `except:` also catches,
so both failure modes are `none`. -/
def callProgram : DataVal V → V → Option V
  | .program f, x => f x
  | .answer _, _ => none

mutual

/-- `Result.process`: return if the node is already completed, raise the
cycle `ValueError` if it is present but in progress, otherwise insert a
placeholder `NodeResult`, run the node's `evaluate`, and mark it
completed.  The `trace` entry records the `evaluate` invocation. -/
def process (env : Env V) : Nat → Nat → EvalState V →
    Except EvalError (EvalState V)
  | 0, _, _ => .error .outOfFuel
  | fuel + 1, id, s =>
    match lookupNR s id with
    | some r => if r.completed then .ok s else .error .cycleError
    | none =>
      let s1 : EvalState V :=
        { s with processed := s.processed ++ [(id, freshNodeResult V)],
                 trace := s.trace ++ [id] }
      match env.store.get? id with
      | none => .error .keyError
      | some spec =>
        match evaluateNode env fuel spec id s1 with
        | .error e => .error e
        | .ok s2 => .ok (markCompleted s2 id)

/-- `Result.__getitem__`: process the node when it is absent from
`_processed_nodes` (and only then), then return its stored
`NodeResult` — an in-progress placeholder is returned as-is. -/
def getitem (env : Env V) : Nat → Nat → EvalState V →
    Except EvalError (NodeResult V × EvalState V)
  | 0, _, _ => .error .outOfFuel
  | fuel + 1, id, s =>
    match (match lookupNR s id with
           | some _ => Except.ok s
           | none => process env fuel id s) with
    | .error e => .error e
    | .ok s1 =>
      match lookupNR s1 id with
      | none => .error .keyError
      | some r => .ok (r, s1)

/-- The `[result[op_node].score for op_node in self.operand]`
comprehension of `OperatorNode.evaluate`. -/
def getScores (env : Env V) : Nat → List Nat → EvalState V →
    Except EvalError (List Int × EvalState V)
  | _, [], s => .ok ([], s)
  | 0, _ :: _, _ => .error .outOfFuel
  | fuel + 1, id :: ids, s =>
    match getitem env fuel id s with
    | .error e => .error e
    | .ok (r, s1) =>
      match getScores env fuel ids s1 with
      | .error e => .error e
      | .ok (rs, s2) => .ok (r.score :: rs, s2)

/-- The per-variant `evaluate` methods of `src/lemoneval/core/graph.py`,
dispatched on the node kind. -/
def evaluateNode (env : Env V) : Nat → NodeSpec V → Nat → EvalState V →
    Except EvalError (EvalState V)
  | 0, _, _, _ => .error .outOfFuel
  | _ + 1, .constant c, selfId, s =>
    match setSuccess s selfId 1 with
    | .error e => .error e
    | .ok s1 => setScore s1 selfId c
  | fuel + 1, .operatorN op ids, selfId, s =>
    match getScores env fuel ids s with
    | .error e => .error e
    | .ok (scores, s1) =>
      match setSuccess s1 selfId 1 with
      | .error e => .error e
      | .ok s2 =>
        match applyOp op scores with
        | .error e => .error e
        | .ok v => setScore s2 selfId v
  | fuel + 1, .ternaryIf i t e, selfId, s =>
    match getitem env fuel i s with
    | .error err => .error err
    | .ok (ri, s1) =>
      if pyTruthy ri.score then
        match getitem env fuel t s1 with
        | .error err => .error err
        | .ok (rt, s2) =>
          match setSuccess s2 selfId rt.success with
          | .error err => .error err
          | .ok s3 =>
            match getitem env fuel t s3 with
            | .error err => .error err
            | .ok (rt2, s4) => setScore s4 selfId rt2.score
      else
        match getitem env fuel e s1 with
        | .error err => .error err
        | .ok (re, s2) =>
          match setSuccess s2 selfId re.success with
          | .error err => .error err
          | .ok s3 =>
            match getitem env fuel e s3 with
            | .error err => .error err
            | .ok (re2, s4) => setScore s4 selfId re2.score
  | _ + 1, .lottery full thr, selfId, s =>
    let sample := env.rand s.rng
    let s0 : EvalState V := { s with rng := s.rng + 1 }
    match (if sample < thr then
             match setSuccess s0 selfId 1 with
             | .error e => .error e
             | .ok s1 => setScore s1 selfId full
           else Except.ok s0) with
    | .error e => .error e
    | .ok s2 => .ok (setMessage s2 selfId "sample" (.sampleVal sample))
  | _ + 1, .answerOnlyTest full aid pred, selfId, s =>
    match env.data aid with
    | none => .ok (setMessage s selfId "lookup_error" (.text "answer not provided"))
    | some d =>
      match (if predHolds pred d then
               match setSuccess s selfId 1 with
               | .error e => .error e
               | .ok s1 => setScore s1 selfId full
             else Except.ok s) with
      | .error e => .error e
      | .ok s2 => .ok (setMessage s2 selfId "answer" (.answerVal d))
  | _ + 1, .programTest full pid inp pred, selfId, s =>
    match env.data pid with
    | none => .ok (setMessage s selfId "lookup_error" (.text "program not provided"))
    | some d =>
      match callProgram d inp with
      | none => .ok (setMessage s selfId "runtime_error" (.text "runtime error"))
      | some out =>
        match (if pred out then
                 match setSuccess s selfId 1 with
                 | .error e => .error e
                 | .ok s1 => setScore s1 selfId full
               else Except.ok s) with
        | .error e => .error e
        | .ok s2 => .ok (setMessage s2 selfId "output" (.outputVal out))

end

/-- The empty starting state of `Result.__init__`. -/
def initState (V : Type) : EvalState V := ⟨[], [], 0⟩

/-- `Result.__init__(root, data)` after `data` normalisation: process the
root, then read `self._processed_nodes[root].score` as `_final_score`.
Returns the final state together with the final score. -/
def resultNew (env : Env V) (fuel : Nat) (root : Nat) :
    Except EvalError (EvalState V × Int) :=
  match process env fuel root (initState V) with
  | .error e => .error e
  | .ok s =>
    match lookupNR s root with
    | none => .error .keyError
    | some r => .ok (s, r.score)

/-- `data or {}` in `Result.__init__` for the `data=None` default. -/
def dataOrEmpty (d : Option (Data V)) : Data V :=
  match d with
  | none => fun _ => none
  | some m => m

/-- `compute_result(root_test, data)` (= `Result(root_test, data)`) with
the optional `data` argument. -/
def compute_result (store : List (NodeSpec V)) (rand : Nat → Rat)
    (fuel : Nat) (root : Nat) (data : Option (Data V)) :
    Except EvalError (EvalState V × Int) :=
  resultNew ⟨store, dataOrEmpty data, rand⟩ fuel root

/-! ### Observation helpers on a finished run -/

/-- Whether the run finished without a Python exception. -/
def isOkR (r : Except EvalError (EvalState V × Int)) : Bool :=
  match r with
  | .ok _ => true
  | .error _ => false

/-- `final_score` of a successful run. -/
def finalScoreOf (r : Except EvalError (EvalState V × Int)) : Option Int :=
  match r with
  | .ok (_, sc) => some sc
  | .error _ => none

/-- The exception a run raised, if any. -/
def errorOf (r : Except EvalError (EvalState V × Int)) : Option EvalError :=
  match r with
  | .ok _ => none
  | .error e => some e

/-- The evaluate-invocation order of a successful run. -/
def traceOf (r : Except EvalError (EvalState V × Int)) : List Nat :=
  match r with
  | .ok (s, _) => s.trace
  | .error _ => []

/-- The number of random samples a successful run drew. -/
def rngOf (r : Except EvalError (EvalState V × Int)) : Nat :=
  match r with
  | .ok (s, _) => s.rng
  | .error _ => 0

/-- The final state of a successful run (junk on error). -/
def stateOf (r : Except EvalError (EvalState V × Int)) : EvalState V :=
  match r with
  | .ok (s, _) => s
  | .error _ => initState V

/-- Whether node `id` is present in `_processed_nodes` of a state. -/
def memoHas (s : EvalState V) (id : Nat) : Bool :=
  (lookupNR s id).isSome

/-- `success` recorded for node `id` in a successful run. -/
def nodeSuccessOf (r : Except EvalError (EvalState V × Int)) (id : Nat) :
    Option Int :=
  match r with
  | .ok (s, _) => (lookupNR s id).map (fun nr => nr.success)
  | .error _ => none

/-- `score` recorded for node `id` in a successful run. -/
def nodeScoreOf (r : Except EvalError (EvalState V × Int)) (id : Nat) :
    Option Int :=
  match r with
  | .ok (s, _) => (lookupNR s id).map (fun nr => nr.score)
  | .error _ => none

/-- Whether node `id`'s messages contain key `k` in a successful run. -/
def hasMsgIn (r : Except EvalError (EvalState V × Int)) (id : Nat)
    (k : String) : Bool :=
  match r with
  | .ok (s, _) =>
    match lookupNR s id with
    | some nr => nr.messages.any (fun p => p.1 == k)
    | none => false
  | .error _ => false

/-! ### Node constructors and composition helpers

In Python a node is created by an `__init__` call; here creation extends
the store and returns the index of the new object.  `make_node` is
`BaseNode.make_node`: a node argument passes through, a number is
wrapped in a fresh `ConstantNode`. -/

/-- An argument to a node constructor: an existing node or a raw number
(that `make_node` wraps in a `ConstantNode`). -/
inductive NodeArg (V : Type) where
  | node (id : Nat)
  | num (q : Int)

/-- `BaseNode.make_node`. -/
def make_node (store : List (NodeSpec V)) (a : NodeArg V) :
    List (NodeSpec V) × Nat :=
  match a with
  | .node id => (store, id)
  | .num q => (store ++ [.constant q], store.length)

/-- `make_node` over an argument list, in order. -/
def make_nodes (store : List (NodeSpec V)) :
    List (NodeArg V) → List (NodeSpec V) × List Nat
  | [] => (store, [])
  | a :: rest =>
    let (s1, id) := make_node store a
    let (s2, ids) := make_nodes s1 rest
    (s2, id :: ids)

/-- `ConstantNode(full_score)`. -/
def constantNodeMk (store : List (NodeSpec V)) (c : Int) :
    List (NodeSpec V) × Nat :=
  (store ++ [.constant c], store.length)

/-- `OperatorNode(op, *args)`: coerce each argument with `make_node`,
then create the operator node. -/
def operatorNodeMk (store : List (NodeSpec V)) (op : OpKind)
    (args : List (NodeArg V)) : List (NodeSpec V) × Nat :=
  let (s1, ids) := make_nodes store args
  (s1 ++ [.operatorN op ids], s1.length)

/-- `TernaryIfNode(if_expr, then_expr, else_expr)`: `make_node` each
argument in declaration order, then create the node. -/
def ternaryIfNodeMk (store : List (NodeSpec V))
    (i t e : NodeArg V) : List (NodeSpec V) × Nat :=
  let (s1, iId) := make_node store i
  let (s2, tId) := make_node s1 t
  let (s3, eId) := make_node s2 e
  (s3 ++ [.ternaryIf iId tId eId], s3.length)

/-- `AnswerOnlyTestNode.__init__` / `ProgramTestNode.__init__` take a
`predicate` that is either callable or a plain value; a non-callable
value `p` is turned into the equality check `lambda x: (x == p)`. -/
inductive PredArg (V : Type) where
  | callable (f : V → Bool)
  | value (v : V)

/-- The predicate stored by the constructor. -/
def predOfArg [DecidableEq V] : PredArg V → (V → Bool)
  | .callable f => f
  | .value p => fun x => decide (x = p)

/-- `AnswerOnlyTestNode(full_score, answer_id, predicate)`. -/
def answerOnlyTestNodeMk [DecidableEq V] (store : List (NodeSpec V))
    (full_score : Int) (answer_id : String) (p : PredArg V) :
    List (NodeSpec V) × Nat :=
  (store ++ [.answerOnlyTest full_score answer_id (predOfArg p)],
   store.length)

/-- `ProgramTestNode(full_score, program_id, test_input, predicate)`. -/
def programTestNodeMk [DecidableEq V] (store : List (NodeSpec V))
    (full_score : Int) (program_id : String) (test_input : V)
    (p : PredArg V) : List (NodeSpec V) × Nat :=
  (store ++ [.programTest full_score program_id test_input (predOfArg p)],
   store.length)

/-- `chains(first, second, *rest)`: recursively build the cascade
`TernaryIfNode(first, first + next_node, 0)` where `first + next_node`
is `OperatorNode(operator.add, first, next_node)` (from
`BaseNode.__add__`) and the literal `0` becomes a fresh
`ConstantNode(0)` inside `TernaryIfNode.__init__`. -/
def chains (store : List (NodeSpec V)) (first second : Nat) :
    List Nat → List (NodeSpec V) × Nat
  | [] =>
    let (s1, addId) := operatorNodeMk store .add [.node first, .node second]
    ternaryIfNodeMk s1 (.node first) (.node addId) (.num 0)
  | r :: rs =>
    let (s1, nextId) := chains store second r rs
    let (s2, addId) := operatorNodeMk s1 .add [.node first, .node nextId]
    ternaryIfNodeMk s2 (.node first) (.node addId) (.num 0)

/-- `node_sum(expressions)`: `OperatorNode(lambda *exp: sum(exp),
*expressions)`. -/
def node_sum (store : List (NodeSpec V)) (expressions : List (NodeArg V)) :
    List (NodeSpec V) × Nat :=
  operatorNodeMk store .sumOp expressions

/-- `node_max(first)` called with a single sequence argument (the
`else` branch of `node_max`): `OperatorNode(max, *first)`. -/
def node_max_seq (store : List (NodeSpec V)) (first : List (NodeArg V)) :
    List (NodeSpec V) × Nat :=
  operatorNodeMk store .maxOp first

/-- `node_max(first, *rest)` with `rest` nonempty:
`OperatorNode(max, first, *rest)`. -/
def node_max_var (store : List (NodeSpec V)) (first : NodeArg V)
    (rest : List (NodeArg V)) : List (NodeSpec V) × Nat :=
  operatorNodeMk store .maxOp (first :: rest)

/-- `node_min(first)` called with a single sequence argument. -/
def node_min_seq (store : List (NodeSpec V)) (first : List (NodeArg V)) :
    List (NodeSpec V) × Nat :=
  operatorNodeMk store .minOp first

/-! ## The `files` extension: sandbox, file-based program test, checkers

`src/lemoneval/files/sandbox.py`, `src/lemoneval/files/graph.py` and
`src/lemoneval/files/checker.py`.  The filesystem is modelled at the
granularity the claims need: the set of existing temporary directories
(file contents inside a directory play no role in any claim, since the
checker invocation in `FileProgramTestNode.evaluate` never reaches a
checker body — see `pythonCall4` below). -/

/-- Python exceptions raised by the `files` components. -/
inductive PyErr where
  | typeError
  | indexError
  deriving DecidableEq, Repr

/-- The filesystem, at directory granularity: which temporary sandbox
directories currently exist, and the name the next `TemporaryDirectory`
will receive. -/
structure FileWorld where
  dirs : List Nat
  next : Nat
  deriving DecidableEq, Repr

/-- `TemporarySandbox`: owns a temporary directory (`dir_path`) and the
`is_open` flag consulted by `clean_up`. -/
structure Sandbox where
  dirId : Nat
  is_open : Bool
  deriving DecidableEq, Repr

/-- `TemporarySandbox.__init__`: create a fresh temporary directory. -/
def acquireSandbox (w : FileWorld) : Sandbox × FileWorld :=
  (⟨w.next, true⟩, ⟨w.dirs ++ [w.next], w.next + 1⟩)

/-- `TemporarySandbox.clean_up`: remove the directory if still open. -/
def cleanUp (sb : Sandbox) (w : FileWorld) : FileWorld :=
  if sb.is_open then { w with dirs := w.dirs.erase sb.dirId } else w

/-- An absolute path inside a sandbox directory. -/
structure SandboxPath where
  dir : Nat
  name : String
  deriving DecidableEq, Repr

/-- `TemporarySandbox.get_file_location`: reserve a relative name. -/
def get_file_location (sb : Sandbox) (name : String) : SandboxPath :=
  ⟨sb.dirId, name⟩

/-- `TemporarySandbox.copy_file`: stage a copy of a source file and
return the destination path (contents are not tracked; no claim reads
them). -/
def copy_file (sb : Sandbox) (_src : String) (dest : String) : SandboxPath :=
  ⟨sb.dirId, dest⟩

/-- Behaviour of the candidate program callable stored under
`program_id`: it either returns normally or raises (any exception,
including the `TypeError` of calling a non-callable, is caught by the
bare `except:` of `FileProgramTestNode.evaluate`). -/
inductive FileProgBehavior where
  | completes
  | raises
  deriving DecidableEq, Repr

/-- The node-result record the `files` evaluation writes into
(`success`/`score` and the string-valued messages it uses). -/
structure FNodeResult where
  success : Rat
  score : Rat
  messages : List (String × String)
  deriving DecidableEq, Repr

/-- `messages[key] = value` for the file-test node result. -/
def addFMsg (r : FNodeResult) (k v : String) : FNodeResult :=
  { r with messages := r.messages ++ [(k, v)] }

/-- A Python value appearing in the argument tuple of the checker call
in `FileProgramTestNode.evaluate`:
`self.checker(result[self], self.full_score, input_fname, output_fname,
solution_fname)`. -/
inductive FPyArg where
  | nres (r : FNodeResult)
  | num (q : Rat)
  | fpath (p : SandboxPath)

/-- Python's positional-call protocol for a callable whose `__call__`
declares exactly four parameters after `self` (as `BaseChecker.__call__`
and `ExternalChecker.__call__` both do): a call with any other number of
positional arguments raises `TypeError`. -/
def pythonCall4 (f : FPyArg → FPyArg → FPyArg → FPyArg →
    Except PyErr (Rat × Rat)) (args : List FPyArg) :
    Except PyErr (Rat × Rat) :=
  match args with
  | [a, b, c, d] => f a b c d
  | _ => .error .typeError

/-- `FileProgramTestNode` (attributes set by `__init__`; the checker is
any object whose `__call__` takes four parameters after `self`). -/
structure FileProgramTestNode where
  full_score : Rat
  program_id : String
  checker : FPyArg → FPyArg → FPyArg → FPyArg → Except PyErr (Rat × Rat)
  input_fname : String
  solution_fname : String
  time_limit : Rat

/-- The body of the `with TemporarySandbox() as sandbox:` block of
`FileProgramTestNode.evaluate`: program lookup, staging, execution,
and the checker call.  `.ok` is a body that returned normally (early
`return` included); `.error` is an exception propagating out of the
block. -/
def fileEvalBody (node : FileProgramTestNode)
    (data : String → Option FileProgBehavior) (sb : Sandbox)
    (res : FNodeResult) : Except PyErr FNodeResult :=
  match data node.program_id with
  | none => .ok (addFMsg res "lookup_error" "program not provided")
  | some prog =>
    let input_fname := copy_file sb node.input_fname "input.txt"
    let output_fname := get_file_location sb "output.txt"
    match prog with
    | .raises => .ok (addFMsg res "runtime_error" "runtime error")
    | .completes =>
      let solution_fname := copy_file sb node.solution_fname "solution.txt"
      match pythonCall4 node.checker
          [.nres res, .num node.full_score, .fpath input_fname,
           .fpath output_fname, .fpath solution_fname] with
      | .error e => .error e
      | .ok _ => .ok res

/-- `FileProgramTestNode.evaluate`: acquire the sandbox, run the body,
and run `TemporarySandbox.__exit__` (i.e. `clean_up`) on both the
normal and the exceptional exit of the `with` block. -/
def fileProgramTestEvaluate (node : FileProgramTestNode)
    (data : String → Option FileProgBehavior) (res : FNodeResult)
    (w : FileWorld) : Except PyErr FNodeResult × FileWorld :=
  let (sandbox, w1) := acquireSandbox w
  let out := fileEvalBody node data sandbox res
  let w2 := cleanUp sandbox w1
  (out, w2)

/-! ### `ExternalChecker` (`src/lemoneval/files/checker.py`) -/

/-- A Python value in the `subprocess.run` argument list of
`ExternalChecker.__call__`. -/
inductive SPyArg where
  | strA (s : String)
  | numA (q : Rat)

/-- Captured output of the spawned process (`stdout=subprocess.PIPE`
without `text=True` yields *bytes*). -/
structure ProcOutput where
  stdout : List Nat

/-- `subprocess.run` validates each element of its argument list: a
`str` passes, any number raises
`TypeError: expected str, bytes or os.PathLike object, not int`. -/
def argvStrings : List SPyArg → Except PyErr (List String)
  | [] => .ok []
  | .strA s :: rest =>
    match argvStrings rest with
    | .error e => .error e
    | .ok rs => .ok (s :: rs)
  | .numA _ :: _ => .error .typeError

/-- `subprocess.run(args, stdout=subprocess.PIPE)` where `proc` models
the spawned checker script (argv strings to stdout bytes). -/
def subprocessRunPiped (proc : List String → List Nat)
    (args : List SPyArg) : Except PyErr ProcOutput :=
  match argvStrings args with
  | .error e => .error e
  | .ok argv => .ok ⟨proc argv⟩

/-- `bytes.split(sep, maxsplit)`: the separator must itself be a
bytes-like object; the source passes the *str* `'\n'`, which raises
`TypeError: a bytes-like object is required, not 'str'`. -/
def bytesSplit (_b : List Nat) (sep : SPyArg) (_maxsplit : Nat) :
    Except PyErr (List (List Nat)) :=
  match sep with
  | .strA _ => .error .typeError
  | .numA _ => .error .typeError

/-- `decimal.Decimal(token)` applied to a bytes token: `Decimal` does
not accept bytes and raises `TypeError` (unreachable in the source,
since `bytes.split` has already raised). -/
def decimalOfBytes (_b : List Nat) : Except PyErr Rat :=
  .error .typeError

/-- `ExternalChecker`: holds the path to the external script. -/
structure ExternalChecker where
  script_path : String

/-- `ExternalChecker.__call__(full_score, input_fname, output_fname,
solution_fname)`: spawn the script with the four values appended to the
argv list, split its captured stdout on `'\n'`, and parse the first two
tokens as `Decimal`s. -/
def externalCheckerCall (c : ExternalChecker)
    (proc : List String → List Nat) (full_score : Rat)
    (input_fname output_fname solution_fname : String) :
    Except PyErr (Rat × Rat) :=
  match subprocessRunPiped proc
      [.strA c.script_path, .numA full_score, .strA input_fname,
       .strA output_fname, .strA solution_fname] with
  | .error e => .error e
  | .ok result =>
    match bytesSplit result.stdout (.strA "\n") 2 with
    | .error e => .error e
    | .ok tokens =>
      match tokens.get? 0, tokens.get? 1 with
      | some t0, some t1 =>
        match decimalOfBytes t0 with
        | .error e => .error e
        | .ok su =>
          match decimalOfBytes t1 with
          | .error e => .error e
          | .ok sc => .ok (su, sc)
      | _, _ => .error .indexError

/-! ### Random-draw accounting

Every `LotteryNode.evaluate` calls `random.random()` exactly once and no
other node variant touches the generator, so the number of draws of a
run equals the number of lottery nodes in its evaluate trace. -/

/-- How many random samples one `evaluate` of this node kind draws. -/
def lotBitSpec : NodeSpec V → Nat
  | .lottery _ _ => 1
  | _ => 0

/-- How many random samples one `evaluate` of node `id` draws. -/
def lotBitId (env : Env V) (id : Nat) : Nat :=
  match env.store.get? id with
  | some spec => lotBitSpec spec
  | none => 0

/-- Total number of random draws performed by the evaluates in `l`. -/
def lotteryDraws (env : Env V) (l : List Nat) : Nat :=
  (l.map (lotBitId env)).sum

/-- State invariant of a `Result` run: no node's `evaluate` has been
entered twice, every traced node has a `_processed_nodes` entry, and
the random cursor equals the number of lottery evaluations so far. -/
def StateInv (env : Env V) (s : EvalState V) : Prop :=
  s.trace.Nodup ∧ (∀ i ∈ s.trace, (lookupNR s i).isSome) ∧
    s.rng = lotteryDraws env s.trace

/-- Invariant at entry to `evaluateNode`: as `StateInv`, but the node
being evaluated has already been traced while its draw (if it is a
lottery) has not happened yet. -/
def EvalInv (env : Env V) (spec : NodeSpec V) (s : EvalState V) : Prop :=
  s.trace.Nodup ∧ (∀ i ∈ s.trace, (lookupNR s i).isSome) ∧
    s.rng + lotBitSpec spec = lotteryDraws env s.trace

/-- One evaluation step preserved the trace, the random cursor, and
which nodes have `_processed_nodes` entries. -/
def Preserves (s s' : EvalState V) : Prop :=
  s'.trace = s.trace ∧ s'.rng = s.rng ∧
    ∀ j, (lookupNR s' j).isSome = (lookupNR s j).isSome

/-- One evaluation step only added `_processed_nodes` entries and only
appended to the trace. -/
def Extends (s s' : EvalState V) : Prop :=
  (∀ j, (lookupNR s j).isSome → (lookupNR s' j).isSome) ∧
    ∃ t, s'.trace = s.trace ++ t

/-! ### Concrete graphs used by individual claims -/

/-- A mutually-referencing node pair: in Python,
`x = OperatorNode(sum_op); y = OperatorNode(sum_op, x);
x.operand.append(y)` — node `0` has operand `1` and node `1` has
operand `0`. -/
def cycEnv : Env Int :=
  ⟨[.operatorN .sumOp [1], .operatorN .sumOp [0]], fun _ => none, fun _ => 0⟩

/-- A self-referencing node: `x.operand` contains `x` itself. -/
def selfLoopEnv : Env Int :=
  ⟨[.operatorN .sumOp [0]], fun _ => none, fun _ => 0⟩

/-- A diamond DAG: root `0` sums nodes `1` and `2`, each of which sums
the shared `LotteryNode` `3` (`LotteryNode(10, 0.5)`); the random
stream always yields `1/4 < 1/2`. -/
def diamondEnv : Env Int :=
  ⟨[.operatorN .sumOp [1, 2], .operatorN .sumOp [3],
    .operatorN .sumOp [3], .lottery 10 (mkRat 1 2)],
   fun _ => none, fun _ => mkRat 1 4⟩

/-- `chains(A, B, C)` over three constant leaves with scores `a`, `b`,
`c` (node ids `0`, `1`, `2`); the cascade allocates ids `3`–`8` with
root `8`. -/
def chainsBuilt (a b c : Int) : List (NodeSpec Int) × Nat :=
  chains [.constant a, .constant b, .constant c] 0 1 [2]

/-- Environment for the `chains(A, B, C)` graph. -/
def chainsEnv (a b c : Int) : Env Int :=
  ⟨(chainsBuilt a b c).1, fun _ => none, fun _ => 0⟩

/-- `node_sum([])` applied to the empty store. -/
def sumEmptyBuilt : List (NodeSpec Int) × Nat := node_sum [] []

/-- Environment for grading `node_sum([])`. -/
def sumEmptyEnv : Env Int := ⟨sumEmptyBuilt.1, fun _ => none, fun _ => 0⟩

/-- `node_max([])` (single empty sequence argument). -/
def maxEmptyBuilt : List (NodeSpec Int) × Nat := node_max_seq [] []

/-- Environment for grading `node_max([])`. -/
def maxEmptyEnv : Env Int := ⟨maxEmptyBuilt.1, fun _ => none, fun _ => 0⟩

/-- `TernaryIfNode(ConstantNode(0), ConstantNode(5), ConstantNode(7))`
as node `0`: the condition (node `1`) is falsy, so the then-branch
(node `2`) is pruned by short-circuit and never visited in the run. -/
def prunedEnv : Env Int :=
  ⟨[.ternaryIf 1 2 3, .constant 0, .constant 5, .constant 7],
   fun _ => none, fun _ => 0⟩

/-- The state of the completed `Result` over `prunedEnv`. -/
def prunedState : EvalState Int := stateOf (resultNew prunedEnv 10 0)

/-- Score returned by a post-run `result[key]` lookup, if it succeeds. -/
def getitemScoreAfter (env : Env V) (fuel id : Nat) (s : EvalState V) :
    Option Int :=
  match getitem env fuel id s with
  | .ok (r, _) => some r.score
  | .error _ => none

/-- Whether a post-run `result[key]` lookup leaves `key` recorded in
`_processed_nodes`. -/
def getitemRecordsAfter (env : Env V) (fuel id : Nat) (s : EvalState V) :
    Bool :=
  match getitem env fuel id s with
  | .ok (_, s') => memoHas s' id
  | .error _ => false

/-- `AnswerOnlyTestNode(full, "k", p)` with non-callable `p`, graded
against data that answers every key with `a`. -/
def answerOnlyEnv (full : Int) (p a : Int) : Env Int :=
  ⟨(answerOnlyTestNodeMk [] full "k" (.value p)).1,
   fun _ => some (.answer a), fun _ => 0⟩

/-- `ProgramTestNode(full, "p", inp, p)` with non-callable `p`, graded
against data whose program computes `g`. -/
def programTestEnv (full : Int) (p : Int) (g : Int → Int) (inp : Int) :
    Env Int :=
  ⟨(programTestNodeMk [] full "p" inp (.value p)).1,
   fun _ => some (.program (fun x => some (g x))), fun _ => 0⟩

/-- The empty data dictionary. -/
def emptyData (V : Type) : Data V := fun _ => none

/-- A graph mixing an `AnswerOnlyTestNode` (node `0`), a
`ProgramTestNode` (node `1`), a constant (node `2`) and their sum
(node `3`, the root). -/
def mixedStore (fullA fullP : Int) (predA predP : Int → Bool) (inp : Int) :
    List (NodeSpec Int) :=
  [.answerOnlyTest fullA "answer_key" predA,
   .programTest fullP "program_key" inp predP,
   .constant 7,
   .operatorN .sumOp [0, 1, 2]]

/-- A concrete file-based program test node whose checker accepts. -/
def cFileNode : FileProgramTestNode :=
  ⟨10, "solver", fun _ _ _ _ => .ok (1, 10), "input0.txt", "sol0.txt", 60⟩

/-- A node result placeholder for the file-based test. -/
def cFileRes : FNodeResult := ⟨0, 0, []⟩

/-! ## Lemmas about the state operations -/

theorem keyFix_fst (id : Nat) (f : NodeResult V → NodeResult V)
    (p : Nat × NodeResult V) :
    (if p.1 = id then (p.1, f p.2) else p).1 = p.1 := by
  by_cases h : p.1 = id <;> simp [h]

theorem lookupNR_updateNR_isSome (s : EvalState V) (id : Nat)
    (f : NodeResult V → NodeResult V) (j : Nat) :
    (lookupNR (updateNR s id f) j).isSome = (lookupNR s j).isSome := by
  unfold lookupNR updateNR
  simp only [List.find?_map]
  have hp : ((fun p : Nat × NodeResult V => p.1 == j) ∘
      (fun p => if p.1 = id then (p.1, f p.2) else p)) =
      (fun p : Nat × NodeResult V => p.1 == j) := by
    funext p
    simp only [Function.comp_apply, keyFix_fst]
  rw [hp]
  cases s.processed.find? (fun p => p.1 == j) <;> rfl

theorem updateNR_trace (s : EvalState V) (id : Nat)
    (f : NodeResult V → NodeResult V) : (updateNR s id f).trace = s.trace :=
  rfl

theorem updateNR_rng (s : EvalState V) (id : Nat)
    (f : NodeResult V → NodeResult V) : (updateNR s id f).rng = s.rng :=
  rfl

theorem preserves_updateNR (s : EvalState V) (id : Nat)
    (f : NodeResult V → NodeResult V) : Preserves s (updateNR s id f) :=
  ⟨rfl, rfl, fun j => lookupNR_updateNR_isSome s id f j⟩

theorem preserves_refl (s : EvalState V) : Preserves s s := ⟨rfl, rfl, fun _ => rfl⟩

theorem preserves_trans {s1 s2 s3 : EvalState V} (h1 : Preserves s1 s2)
    (h2 : Preserves s2 s3) : Preserves s1 s3 :=
  ⟨h2.1.trans h1.1, h2.2.1.trans h1.2.1,
   fun j => (h2.2.2 j).trans (h1.2.2 j)⟩

theorem extends_refl (s : EvalState V) : Extends s s :=
  ⟨fun _ h => h, [], by simp⟩

theorem extends_trans {s1 s2 s3 : EvalState V} (h1 : Extends s1 s2)
    (h2 : Extends s2 s3) : Extends s1 s3 := by
  refine ⟨fun j h => h2.1 j (h1.1 j h), ?_⟩
  obtain ⟨t1, ht1⟩ := h1.2
  obtain ⟨t2, ht2⟩ := h2.2
  exact ⟨t1 ++ t2, by rw [ht2, ht1, List.append_assoc]⟩

theorem extends_of_preserves {s s' : EvalState V} (h : Preserves s s') :
    Extends s s' :=
  ⟨fun j hj => by rw [h.2.2 j]; exact hj, [], by simp [h.1]⟩

theorem stateInv_of_preserves {env : Env V} {s s' : EvalState V}
    (h : Preserves s s') (hi : StateInv env s) : StateInv env s' := by
  obtain ⟨hn, hm, hr⟩ := hi
  refine ⟨h.1 ▸ hn, ?_, ?_⟩
  · intro i hi
    rw [h.2.2 i]
    exact hm i (h.1 ▸ hi)
  · rw [h.2.1, h.1]
    exact hr

theorem setSuccess_ok {s s' : EvalState V} {id : Nat} {v : Int}
    (h : setSuccess s id v = .ok s') : Preserves s s' := by
  unfold setSuccess at h
  cases hl : lookupNR s id with
  | none => rw [hl] at h; exact absurd h (by simp)
  | some r =>
    rw [hl] at h
    by_cases hc : r.completed
    · simp [hc] at h
    · simp only [hc, if_false, Bool.false_eq_true, Except.ok.injEq] at h
      rw [← h]
      exact preserves_updateNR s id _

theorem setScore_ok {s s' : EvalState V} {id : Nat} {v : Int}
    (h : setScore s id v = .ok s') : Preserves s s' := by
  unfold setScore at h
  cases hl : lookupNR s id with
  | none => rw [hl] at h; exact absurd h (by simp)
  | some r =>
    rw [hl] at h
    by_cases hc : r.completed
    · simp [hc] at h
    · simp only [hc, if_false, Bool.false_eq_true, Except.ok.injEq] at h
      rw [← h]
      exact preserves_updateNR s id _

theorem setMessage_preserves (s : EvalState V) (id : Nat) (k : String)
    (m : Msg V) : Preserves s (setMessage s id k m) :=
  preserves_updateNR s id _

theorem markCompleted_preserves (s : EvalState V) (id : Nat) :
    Preserves s (markCompleted s id) :=
  preserves_updateNR s id _

/-- Inserting the placeholder for a fresh node `id`: every earlier
entry is untouched and `id` becomes present. -/
theorem lookupNR_insert (s : EvalState V) (id : Nat) (r : NodeResult V)
    (j : Nat) :
    lookupNR { s with processed := s.processed ++ [(id, r)],
                      trace := s.trace ++ [id] } j =
      ((lookupNR s j).or (if id = j then some r else none)) := by
  unfold lookupNR
  simp only [List.find?_append]
  cases s.processed.find? (fun p => p.1 == j) with
  | none =>
    simp only [Option.none_or, Option.map_none', List.find?]
    by_cases h : id = j
    · simp [h]
    · simp [List.find?, show (id == j) = false by simp [h], h]
  | some p => simp

theorem evalInv_of_stateInv_zero {env : Env V} {spec : NodeSpec V}
    {s : EvalState V} (h0 : lotBitSpec spec = 0) (h : EvalInv env spec s) :
    StateInv env s := by
  obtain ⟨h1, h2, h3⟩ := h
  rw [h0, Nat.add_zero] at h3
  exact ⟨h1, h2, h3⟩

/-- The master invariant of the evaluator: every successful call of
`process` / `getitem` / `getScores` / `evaluateNode` only extends the
memo table and the trace, and preserves `StateInv` (for
`evaluateNode`, from the entry form `EvalInv`). -/
theorem evalMachineInv (env : Env V) : ∀ fuel : Nat,
    (∀ id s s', process env fuel id s = .ok s' →
      Extends s s' ∧ (StateInv env s → StateInv env s')) ∧
    (∀ id s r s', getitem env fuel id s = .ok (r, s') →
      Extends s s' ∧ (StateInv env s → StateInv env s')) ∧
    (∀ ids s rs s', getScores env fuel ids s = .ok (rs, s') →
      Extends s s' ∧ (StateInv env s → StateInv env s')) ∧
    (∀ spec n s s', evaluateNode env fuel spec n s = .ok s' →
      Extends s s' ∧ (EvalInv env spec s → StateInv env s')) := by
  intro fuel
  induction fuel with
  | zero =>
    refine ⟨?_, ?_, ?_, ?_⟩
    · intro id s s' h; exact absurd h (by simp [process])
    · intro id s r s' h; exact absurd h (by simp [getitem])
    · intro ids s rs s' h
      cases ids with
      | nil =>
        simp only [getScores, Except.ok.injEq, Prod.mk.injEq] at h
        rw [← h.2]
        exact ⟨extends_refl s, fun hi => hi⟩
      | cons x xs => exact absurd h (by simp [getScores])
    · intro spec n s s' h; exact absurd h (by simp [evaluateNode])
  | succ fuel ih =>
    obtain ⟨ihP, ihG, ihS, ihE⟩ := ih
    have hGet : ∀ id s r s', getitem env (fuel + 1) id s = .ok (r, s') →
        Extends s s' ∧ (StateInv env s → StateInv env s') := by
      intro id s r s' h
      simp only [getitem] at h
      cases hl : lookupNR s id with
      | some r0 =>
        simp only [hl] at h
        simp only [hl, Except.ok.injEq, Prod.mk.injEq] at h
        rw [← h.2]
        exact ⟨extends_refl s, fun hi => hi⟩
      | none =>
        simp only [hl] at h
        cases hp : process env fuel id s with
        | error e => rw [hp] at h; simp at h
        | ok s1 =>
          simp only [hp] at h
          cases hl1 : lookupNR s1 id with
          | none => rw [hl1] at h; simp at h
          | some r1 =>
            simp only [hl1] at h
            simp only [Except.ok.injEq, Prod.mk.injEq] at h
            rw [← h.2]
            exact ihP id s s1 hp
    have hScores : ∀ ids s rs s', getScores env (fuel + 1) ids s = .ok (rs, s') →
        Extends s s' ∧ (StateInv env s → StateInv env s') := by
      intro ids s rs s' h
      cases ids with
      | nil =>
        simp only [getScores, Except.ok.injEq, Prod.mk.injEq] at h
        rw [← h.2]
        exact ⟨extends_refl s, fun hi => hi⟩
      | cons x xs =>
        simp only [getScores] at h
        cases hg : getitem env fuel x s with
        | error e => rw [hg] at h; simp at h
        | ok p =>
          obtain ⟨r1, s1⟩ := p
          simp only [hg] at h
          cases hs : getScores env fuel xs s1 with
          | error e => rw [hs] at h; simp at h
          | ok q =>
            obtain ⟨rs2, s2⟩ := q
            simp only [hs] at h
            simp only [Except.ok.injEq, Prod.mk.injEq] at h
            rw [← h.2]
            obtain ⟨e1, i1⟩ := ihG x s r1 s1 hg
            obtain ⟨e2, i2⟩ := ihS xs s1 rs2 s2 hs
            exact ⟨extends_trans e1 e2, fun hi => i2 (i1 hi)⟩
    refine ⟨?_, hGet, hScores, ?_⟩
    · -- process
      intro id s s' h
      simp only [process] at h
      cases hl : lookupNR s id with
      | some r0 =>
        simp only [hl] at h
        by_cases hc : r0.completed
        · simp only [hc, if_true] at h
          cases h
          exact ⟨extends_refl s, fun hi => hi⟩
        · simp [hc] at h
      | none =>
        simp only [hl] at h
        cases hg : env.store.get? id with
        | none => rw [hg] at h; simp at h
        | some spec =>
          simp only [hg] at h
          set s1 : EvalState V :=
            { s with processed := s.processed ++ [(id, freshNodeResult V)],
                     trace := s.trace ++ [id] } with hs1
          cases he : evaluateNode env fuel spec id s1 with
          | error e => rw [he] at h; simp at h
          | ok s2 =>
            simp only [he] at h
            simp only [Except.ok.injEq] at h
            rw [← h]
            obtain ⟨e2, i2⟩ := ihE spec id s1 s2 he
            have eIns : Extends s s1 := by
              refine ⟨?_, [id], rfl⟩
              intro j hj
              rw [hs1, lookupNR_insert]
              cases hcase : lookupNR s j with
              | none => rw [hcase] at hj; simp at hj
              | some x => simp
            have e3 : Extends s2 (markCompleted s2 id) :=
              extends_of_preserves (markCompleted_preserves s2 id)
            refine ⟨extends_trans (extends_trans eIns e2) e3, ?_⟩
            intro hi
            obtain ⟨hn, hm, hr⟩ := hi
            have hid_not_mem : id ∉ s.trace := by
              intro hmem
              have := hm id hmem
              rw [hl] at this
              simp at this
            have hInv1 : EvalInv env spec s1 := by
              refine ⟨?_, ?_, ?_⟩
              · rw [hs1]
                simp only [List.nodup_append, List.nodup_cons,
                  List.not_mem_nil, not_false_eq_true, List.nodup_nil,
                  and_true, List.disjoint_singleton]
                exact ⟨hn, trivial, hid_not_mem⟩
              · intro i hi2
                rw [hs1] at hi2 ⊢
                simp only [List.mem_append, List.mem_singleton] at hi2
                rw [lookupNR_insert]
                rcases hi2 with hi2 | hi2
                · have := hm i hi2
                  cases hx : lookupNR s i with
                  | none => rw [hx] at this; simp at this
                  | some y => simp
                · rw [hi2, hl]
                  simp
              · rw [hs1]
                show s.rng + lotBitSpec spec = lotteryDraws env (s.trace ++ [id])
                unfold lotteryDraws
                rw [List.map_append, List.sum_append]
                simp only [List.map_cons, List.map_nil, List.sum_cons,
                  List.sum_nil]
                have : lotBitId env id = lotBitSpec spec := by
                  unfold lotBitId
                  rw [hg]
                rw [this]
                unfold lotteryDraws at hr
                omega
            have hInv2 := i2 hInv1
            exact stateInv_of_preserves (markCompleted_preserves s2 id) hInv2
    · -- evaluateNode
      intro spec n s s' h
      cases spec with
      | constant c =>
        simp only [evaluateNode] at h
        cases h1 : setSuccess s n 1 with
        | error e => rw [h1] at h; simp at h
        | ok sA =>
          simp only [h1] at h
          have p1 := setSuccess_ok h1
          have p2 := setScore_ok h
          have hp := preserves_trans p1 p2
          exact ⟨extends_of_preserves hp,
            fun hi => stateInv_of_preserves hp
              (evalInv_of_stateInv_zero (by simp [lotBitSpec]) hi)⟩
      | operatorN op ids =>
        simp only [evaluateNode] at h
        cases hs : getScores env fuel ids s with
        | error e => rw [hs] at h; simp at h
        | ok q =>
          obtain ⟨scores, s1⟩ := q
          simp only [hs] at h
          cases h1 : setSuccess s1 n 1 with
          | error e => rw [h1] at h; simp at h
          | ok s2 =>
            simp only [h1] at h
            cases ha : applyOp op scores with
            | error e => rw [ha] at h; simp at h
            | ok v =>
              simp only [ha] at h
              obtain ⟨e1, i1⟩ := ihS ids s scores s1 hs
              have p1 := setSuccess_ok h1
              have p2 := setScore_ok h
              have hp := preserves_trans p1 p2
              refine ⟨extends_trans e1 (extends_of_preserves hp), ?_⟩
              intro hi
              exact stateInv_of_preserves hp
                (i1 (evalInv_of_stateInv_zero (by simp [lotBitSpec]) hi))
      | ternaryIf i t e =>
        simp only [evaluateNode] at h
        cases hg1 : getitem env fuel i s with
        | error e => rw [hg1] at h; simp at h
        | ok p =>
          obtain ⟨ri, s1⟩ := p
          simp only [hg1] at h
          obtain ⟨e1, i1⟩ := ihG i s ri s1 hg1
          by_cases ht : pyTruthy ri.score = true
          · simp only [ht] at h
            simp only [if_true] at h
            cases hg2 : getitem env fuel t s1 with
            | error er => rw [hg2] at h; simp at h
            | ok p2 =>
              obtain ⟨rt, s2⟩ := p2
              simp only [hg2] at h
              cases h1 : setSuccess s2 n rt.success with
              | error er => rw [h1] at h; simp at h
              | ok s3 =>
                simp only [h1] at h
                cases hg3 : getitem env fuel t s3 with
                | error er => rw [hg3] at h; simp at h
                | ok p3 =>
                  obtain ⟨rt2, s4⟩ := p3
                  simp only [hg3] at h
                  obtain ⟨e2, i2⟩ := ihG t s1 rt s2 hg2
                  have p1 := setSuccess_ok h1
                  obtain ⟨e3, i3⟩ := ihG t s3 rt2 s4 hg3
                  have p2 := setScore_ok h
                  refine ⟨?_, ?_⟩
                  · exact extends_trans e1 (extends_trans e2
                      (extends_trans (extends_of_preserves p1)
                        (extends_trans e3 (extends_of_preserves p2))))
                  · intro hi
                    have h0 := i1 (evalInv_of_stateInv_zero (by simp [lotBitSpec]) hi)
                    exact stateInv_of_preserves p2
                      (i3 (stateInv_of_preserves p1 (i2 h0)))
          · rw [Bool.not_eq_true] at ht
            simp only [ht] at h
            simp only [if_false, Bool.false_eq_true] at h
            cases hg2 : getitem env fuel e s1 with
            | error er => rw [hg2] at h; simp at h
            | ok p2 =>
              obtain ⟨re1, s2⟩ := p2
              simp only [hg2] at h
              cases h1 : setSuccess s2 n re1.success with
              | error er => rw [h1] at h; simp at h
              | ok s3 =>
                simp only [h1] at h
                cases hg3 : getitem env fuel e s3 with
                | error er => rw [hg3] at h; simp at h
                | ok p3 =>
                  obtain ⟨re2, s4⟩ := p3
                  simp only [hg3] at h
                  obtain ⟨e2, i2⟩ := ihG e s1 re1 s2 hg2
                  have p1 := setSuccess_ok h1
                  obtain ⟨e3, i3⟩ := ihG e s3 re2 s4 hg3
                  have p2 := setScore_ok h
                  refine ⟨?_, ?_⟩
                  · exact extends_trans e1 (extends_trans e2
                      (extends_trans (extends_of_preserves p1)
                        (extends_trans e3 (extends_of_preserves p2))))
                  · intro hi
                    have h0 := i1 (evalInv_of_stateInv_zero (by simp [lotBitSpec]) hi)
                    exact stateInv_of_preserves p2
                      (i3 (stateInv_of_preserves p1 (i2 h0)))
      | lottery full thr =>
        simp only [evaluateNode] at h
        set s0 : EvalState V := { s with rng := s.rng + 1 } with hs0
        have base : ∀ sB, Preserves s0 sB →
            Extends s sB ∧ (EvalInv env (.lottery full thr) s → StateInv env sB) := by
          intro sB hPres
          have hext : Extends s s0 := ⟨fun j hj => hj, [], by simp [hs0]⟩
          refine ⟨extends_trans hext (extends_of_preserves hPres), ?_⟩
          intro hi
          obtain ⟨h1, h2, h3⟩ := hi
          have : StateInv env s0 := by
            refine ⟨h1, h2, ?_⟩
            rw [hs0]
            show s.rng + 1 = lotteryDraws env s.trace
            simpa [lotBitSpec] using h3
          exact stateInv_of_preserves hPres this
        by_cases hlt : env.rand s.rng < thr
        · rw [if_pos hlt] at h
          cases h1 : setSuccess s0 n 1 with
          | error er => rw [h1] at h; simp at h
          | ok s1 =>
            simp only [h1] at h
            cases h2 : setScore s1 n full with
            | error er => rw [h2] at h; simp at h
            | ok s2 =>
              simp only [h2] at h
              simp only [Except.ok.injEq] at h
              rw [← h]
              have hp := preserves_trans (preserves_trans
                (setSuccess_ok h1) (setScore_ok h2))
                (setMessage_preserves s2 n "sample" (.sampleVal (env.rand s.rng)))
              exact base _ hp
        · rw [if_neg hlt] at h
          simp only [Except.ok.injEq] at h
          rw [← h]
          exact base _ (setMessage_preserves s0 n "sample" (.sampleVal (env.rand s.rng)))
      | answerOnlyTest full aid pred =>
        simp only [evaluateNode] at h
        have base : ∀ sB, Preserves s sB →
            Extends s sB ∧ (EvalInv env (.answerOnlyTest full aid pred) s →
              StateInv env sB) := by
          intro sB hPres
          exact ⟨extends_of_preserves hPres,
            fun hi => stateInv_of_preserves hPres
              (evalInv_of_stateInv_zero (by simp [lotBitSpec]) hi)⟩
        cases hd : env.data aid with
        | none =>
          simp only [hd] at h
          simp only [Except.ok.injEq] at h
          rw [← h]
          exact base _ (setMessage_preserves s n "lookup_error" _)
        | some d =>
          simp only [hd] at h
          by_cases hp : predHolds pred d = true
          · simp only [hp] at h
            simp only [if_true] at h
            cases h1 : setSuccess s n 1 with
            | error er => rw [h1] at h; simp at h
            | ok s1 =>
              simp only [h1] at h
              cases h2 : setScore s1 n full with
              | error er => rw [h2] at h; simp at h
              | ok s2 =>
                simp only [h2] at h
                simp only [Except.ok.injEq] at h
                rw [← h]
                exact base _ (preserves_trans (preserves_trans
                  (setSuccess_ok h1) (setScore_ok h2))
                  (setMessage_preserves s2 n "answer" _))
          · rw [Bool.not_eq_true] at hp
            simp only [hp] at h
            simp only [if_false, Bool.false_eq_true] at h
            simp only [Except.ok.injEq] at h
            rw [← h]
            exact base _ (setMessage_preserves s n "answer" _)
      | programTest full pid inp pred =>
        simp only [evaluateNode] at h
        have base : ∀ sB, Preserves s sB →
            Extends s sB ∧ (EvalInv env (.programTest full pid inp pred) s →
              StateInv env sB) := by
          intro sB hPres
          exact ⟨extends_of_preserves hPres,
            fun hi => stateInv_of_preserves hPres
              (evalInv_of_stateInv_zero (by simp [lotBitSpec]) hi)⟩
        cases hd : env.data pid with
        | none =>
          simp only [hd] at h
          simp only [Except.ok.injEq] at h
          rw [← h]
          exact base _ (setMessage_preserves s n "lookup_error" _)
        | some d =>
          simp only [hd] at h
          cases hc : callProgram d inp with
          | none =>
            simp only [hc] at h
            simp only [Except.ok.injEq] at h
            rw [← h]
            exact base _ (setMessage_preserves s n "runtime_error" _)
          | some out =>
            simp only [hc] at h
            by_cases hp : pred out = true
            · simp only [hp] at h
              simp only [if_true] at h
              cases h1 : setSuccess s n 1 with
              | error er => rw [h1] at h; simp at h
              | ok s1 =>
                simp only [h1] at h
                cases h2 : setScore s1 n full with
                | error er => rw [h2] at h; simp at h
                | ok s2 =>
                  simp only [h2] at h
                  simp only [Except.ok.injEq] at h
                  rw [← h]
                  exact base _ (preserves_trans (preserves_trans
                    (setSuccess_ok h1) (setScore_ok h2))
                    (setMessage_preserves s2 n "output" _))
            · rw [Bool.not_eq_true] at hp
              simp only [hp] at h
              simp only [if_false, Bool.false_eq_true] at h
              simp only [Except.ok.injEq] at h
              rw [← h]
              exact base _ (setMessage_preserves s n "output" _)

/-! ## Claim theorems -/

/-- C1: the claim says a cyclic test graph always raises a cycle error
and never completes with a final score.  The code disagrees: because
`Result.__getitem__` calls `process` only when the node is absent from
`_processed_nodes`, a back-edge reads the in-progress placeholder
(score `0`) and the run completes normally — here both for a
mutually-referencing pair and for a self-referencing node, with final
score `0` and no exception (in particular, no infinite loop). -/
theorem cyclic_graph_completes_without_cycle_error :
    errorOf (resultNew cycEnv 10 0) = none ∧
    finalScoreOf (resultNew cycEnv 10 0) = some 0 ∧
    errorOf (resultNew selfLoopEnv 10 0) = none ∧
    finalScoreOf (resultNew selfLoopEnv 10 0) = some 0 := by decide

/-- C2: in one `Result`, every node's `evaluate` is entered at most
once (the trace has no duplicates), the number of random draws equals
the number of lottery evaluations in the trace (so a shared
`LotteryNode` samples exactly once), and a lookup of an
already-recorded node returns the memoized `NodeResult` without
re-evaluating or changing the state. -/
theorem each_node_evaluated_at_most_once (env : Env V) (fuel root : Nat)
    (h : isOkR (resultNew env fuel root) = true) :
    (traceOf (resultNew env fuel root)).Nodup ∧
    rngOf (resultNew env fuel root) =
      lotteryDraws env (traceOf (resultNew env fuel root)) ∧
    (∀ (fuel2 id : Nat) (s : EvalState V) (r : NodeResult V),
      lookupNR s id = some r →
      getitem env (fuel2 + 1) id s = .ok (r, s)) := by
  have memoized : ∀ (fuel2 id : Nat) (s : EvalState V) (r : NodeResult V),
      lookupNR s id = some r → getitem env (fuel2 + 1) id s = .ok (r, s) := by
    intro fuel2 id s r hmem
    simp only [getitem, hmem]
  unfold resultNew at h ⊢
  unfold isOkR at h
  cases hp : process env fuel root (initState V) with
  | error e => simp only [hp] at h; simp at h
  | ok s =>
    simp only [hp] at h ⊢
    cases hl : lookupNR s root with
    | none => simp only [hl] at h; simp at h
    | some r =>
      simp only [hl] at h ⊢
      have hInv0 : StateInv env (initState V) := by
        refine ⟨List.nodup_nil, ?_, rfl⟩
        intro i hi
        simp [initState] at hi
      have hInv := ((evalMachineInv env fuel).1 root (initState V) s hp).2 hInv0
      obtain ⟨hn, _, hr⟩ := hInv
      simp only [traceOf, rngOf]
      exact ⟨hn, hr, memoized⟩

/-- C2 witness: the diamond graph whose two middle nodes share one
`LotteryNode`: the run succeeds, no node is evaluated twice, and the
lottery draws exactly one sample (`rng = 1 = lotteryDraws` over the
trace `[0, 1, 3, 2]`). -/
theorem each_node_evaluated_at_most_once_witness :
    isOkR (resultNew diamondEnv 10 0) = true ∧
    ((traceOf (resultNew diamondEnv 10 0)).Nodup ∧
     rngOf (resultNew diamondEnv 10 0) =
       lotteryDraws diamondEnv (traceOf (resultNew diamondEnv 10 0)) ∧
     (∀ (fuel2 id : Nat) (s : EvalState Int) (r : NodeResult Int),
       lookupNR s id = some r →
       getitem diamondEnv (fuel2 + 1) id s = .ok (r, s))) :=
  ⟨by decide, each_node_evaluated_at_most_once diamondEnv 10 0 (by decide)⟩

/-- C4: on the success path (`program` found and returning normally)
`FileProgramTestNode.evaluate` calls the checker with FIVE positional
arguments — `result[self]` prepended to the four of the
`BaseChecker.__call__` signature — so the call raises `TypeError` for
every checker, and no `(success, score)` pair is ever written; a call
with exactly four arguments would have reached the checker. -/
theorem file_checker_call_raises_type_error :
    (∀ (node : FileProgramTestNode) (res : FNodeResult) (w : FileWorld),
      (fileProgramTestEvaluate node (fun _ => some .completes) res w).1 =
        .error .typeError) ∧
    (∀ (f : FPyArg → FPyArg → FPyArg → FPyArg → Except PyErr (Rat × Rat))
       (a b c d : FPyArg), pythonCall4 f [a, b, c, d] = f a b c d) :=
  ⟨fun _ _ _ => rfl, fun _ _ _ _ _ => rfl⟩

/-- C5: `FileProgramTestNode.evaluate` removes its sandbox temporary
directory on every exit path — lookup failure, runtime failure, and
the checker call (which raises) alike — before returning: the final
filesystem has exactly the directories it started with, and the
sandbox directory is gone. -/
theorem sandbox_removed_on_every_exit_path
    (node : FileProgramTestNode) (data : String → Option FileProgBehavior)
    (res : FNodeResult) (w : FileWorld) (h : w.next ∉ w.dirs) :
    ((fileProgramTestEvaluate node data res w).2).dirs = w.dirs ∧
    w.next ∉ ((fileProgramTestEvaluate node data res w).2).dirs := by
  have key : (w.dirs ++ [w.next]).erase w.next = w.dirs := by
    rw [List.erase_append_right _ h, List.erase_cons_head, List.append_nil]
  constructor
  · show (w.dirs ++ [w.next]).erase w.next = w.dirs
    exact key
  · show w.next ∉ (w.dirs ++ [w.next]).erase w.next
    rw [key]
    exact h

/-- C5 witness: a concrete run from an empty filesystem: the sandbox
directory `0` is created and removed again, whatever the data map. -/
theorem sandbox_removed_on_every_exit_path_witness :
    (0 : Nat) ∉ ([] : List Nat) ∧
    (((fileProgramTestEvaluate cFileNode (fun _ => none) cFileRes
        ⟨[], 0⟩).2).dirs = [] ∧
     (0 : Nat) ∉ ((fileProgramTestEvaluate cFileNode (fun _ => none) cFileRes
        ⟨[], 0⟩).2).dirs) :=
  ⟨by decide, sandbox_removed_on_every_exit_path cFileNode (fun _ => none)
    cFileRes ⟨[], 0⟩ (by decide)⟩

/-- C6 counterexample: `node_sum([])` does not raise — it builds an
`OperatorNode` with no operands whose evaluation succeeds with final
score `0`, contradicting the claim that an empty sum must raise and
never silently yield `0`. -/
theorem node_sum_empty_silently_evaluates_to_zero :
    isOkR (resultNew sumEmptyEnv 5 sumEmptyBuilt.2) = true ∧
    finalScoreOf (resultNew sumEmptyEnv 5 sumEmptyBuilt.2) = some 0 := by
  decide

/-- C6 (amended): `node_sum([])` constructs a node without error and
its evaluation silently yields score `0` with success `1`
(`sum(()) == 0`); `node_max([])` also constructs without raising, and
only its evaluation raises `TypeError` (`max()` of no arguments). -/
theorem node_sum_empty_zero_node_max_empty_raises_on_evaluation :
    finalScoreOf (resultNew sumEmptyEnv 5 sumEmptyBuilt.2) = some 0 ∧
    nodeSuccessOf (resultNew sumEmptyEnv 5 sumEmptyBuilt.2) sumEmptyBuilt.2 =
      some 1 ∧
    errorOf (resultNew maxEmptyEnv 5 maxEmptyBuilt.2) = some .typeError := by
  decide

/-- C7 counterexample: after the run over `prunedEnv` (condition
falsy, so the then-branch node `2` was pruned), node `2` is indeed
absent from `_processed_nodes` — but `result[2]` is not invalid: the
lookup evaluates the node after the fact and returns its score `5`,
contradicting the claim that the lookup does not evaluate the node. -/
theorem pruned_node_lookup_evaluates_after_the_fact :
    memoHas prunedState 2 = false ∧
    getitemScoreAfter prunedEnv 10 2 prunedState = some 5 := by decide

/-- C7 (amended): a node pruned by short-circuit is not in the
per-node result map when the traversal completes, but a later
`result[node]` lookup is not an error and the `Result` is not
read-only: `__getitem__` processes the node on demand, records it in
the map, and returns its freshly evaluated `NodeResult`. -/
theorem pruned_node_lookup_is_lazy_evaluation :
    memoHas prunedState 2 = false ∧
    finalScoreOf (resultNew prunedEnv 10 0) = some 7 ∧
    getitemScoreAfter prunedEnv 10 2 prunedState = some 5 ∧
    getitemRecordsAfter prunedEnv 10 2 prunedState = true := by decide

set_option maxHeartbeats 4000000 in
/-- C3: evaluating the `chains(A, B, C)` cascade of `TernaryIfNode`s
over leaves with resolved scores `a`, `b`, `c`: the total is `a` plus
the contingent evaluation of `chains(B, C)` exactly when `a` is
nonzero, and `0` for all remaining terms when `a = 0` — and the
truthiness test is on the *score*, not the success flag: the first
leaf always has `success = 1`, yet a zero score still short-circuits
the cascade to `0`. -/
theorem chains_contingent_cascade_score (a b c : Int) :
    finalScoreOf (resultNew (chainsEnv a b c) 18 (chainsBuilt a b c).2) =
      some (if a ≠ 0 then a + (if b ≠ 0 then b + c else 0) else 0) ∧
    nodeSuccessOf (resultNew (chainsEnv a b c) 18 (chainsBuilt a b c).2) 0 =
      some 1 := by
  by_cases ha : a = 0 <;> by_cases hb : b = 0 <;>
    simp only [chainsEnv, chainsBuilt, chains, operatorNodeMk, make_nodes,
      make_node, ternaryIfNodeMk, resultNew, process, getitem, getScores,
      evaluateNode, lookupNR, updateNR, setSuccess, setScore, setMessage,
      markCompleted, freshNodeResult, initState, pyTruthy, applyOp,
      finalScoreOf, msgInsert, nodeSuccessOf, List.find?, List.get?,
      List.map, List.append_eq, List.cons_append, List.nil_append, List.any,
      List.sum, List.length, ha, hb, ne_eq, decide_not, not_false_eq_true,
      decide_True, decide_False, Bool.not_false, Bool.not_true, if_true,
      if_false, ite_true, ite_false, Nat.reduceBEq, Nat.reduceEqDiff,
      reduceIte, Nat.reduceAdd, Nat.reduceSub, Option.map_some',
      Option.map_none', beq_self_eq_true, beq_iff_eq, reduceCtorEq,
      Nat.add_eq, List.cons.injEq, eq_self_iff_true, not_true_eq_false,
      and_self]

/-- C8: `ExternalChecker.__call__` never returns the `(success, score)`
pair: it raises `TypeError` for every script path, process behaviour
and input — the numeric `full_score` is placed directly in the
`subprocess.run` argument list (which only accepts strings), and the
captured `stdout` is `bytes` while the code calls `.split('\n')` with
a `str` separator. -/
theorem external_checker_always_raises_type_error
    (c : ExternalChecker) (proc : List String → List Nat)
    (full_score : Rat) (input_fname output_fname solution_fname : String) :
    externalCheckerCall c proc full_score input_fname output_fname
      solution_fname = .error .typeError := rfl

/-- C9: a non-callable predicate value `p` given to
`AnswerOnlyTestNode.__init__` or `ProgramTestNode.__init__` becomes the
equality check `lambda x: (x == p)`: the node yields `success = 1` and
`score = full_score` exactly when the looked-up answer (respectively
the program's output on the test input) equals `p`, and
`success = 0, score = 0` otherwise. -/
theorem noncallable_predicate_becomes_equality_check
    (full : Int) (p a : Int) (g : Int → Int) (inp : Int) :
    (nodeSuccessOf (resultNew (answerOnlyEnv full p a) 5 0) 0 =
        some (if a = p then 1 else 0) ∧
     nodeScoreOf (resultNew (answerOnlyEnv full p a) 5 0) 0 =
        some (if a = p then full else 0)) ∧
    (nodeSuccessOf (resultNew (programTestEnv full p g inp) 5 0) 0 =
        some (if g inp = p then 1 else 0) ∧
     nodeScoreOf (resultNew (programTestEnv full p g inp) 5 0) 0 =
        some (if g inp = p then full else 0)) := by
  by_cases h1 : a = p <;> by_cases h2 : g inp = p <;>
    simp only [answerOnlyEnv, programTestEnv, answerOnlyTestNodeMk,
      programTestNodeMk, predOfArg, resultNew, process, getitem, getScores,
      evaluateNode, lookupNR, updateNR, setSuccess, setScore, setMessage,
      markCompleted, freshNodeResult, initState, pyTruthy, applyOp,
      predHolds, callProgram, msgInsert, nodeSuccessOf, nodeScoreOf,
      List.find?, List.get?, List.map, List.append_eq, List.cons_append,
      List.nil_append, List.any, List.length, h1, h2, ne_eq, decide_not,
      not_false_eq_true, decide_True, decide_False, Bool.not_false,
      Bool.not_true, if_true, if_false, ite_true, ite_false, Nat.reduceBEq,
      reduceIte, Option.map_some', Option.map_none', beq_self_eq_true,
      beq_iff_eq, reduceCtorEq, eq_self_iff_true, not_true_eq_false,
      and_self]

/-- C10: `Result.__init__` normalises `data=None` to the empty map
(`data or {}`), producing the identical computation; under it every
`AnswerOnlyTestNode` and `ProgramTestNode` lookup fails softly with
`success = 0`, `score = 0` and a `lookup_error` message, evaluation of
the rest of the graph proceeds (the sibling constant still contributes
`7` to the sum) and no exception escapes. -/
theorem none_data_behaves_as_empty_map (fullA fullP : Int)
    (predA predP : Int → Bool) (inp : Int) (rand : Nat → Rat) :
    (compute_result (mixedStore fullA fullP predA predP inp) rand 10 3 none =
      compute_result (mixedStore fullA fullP predA predP inp) rand 10 3
        (some (emptyData Int))) ∧
    isOkR (compute_result (mixedStore fullA fullP predA predP inp)
      rand 10 3 none) = true ∧
    finalScoreOf (compute_result (mixedStore fullA fullP predA predP inp)
      rand 10 3 none) = some 7 ∧
    nodeSuccessOf (compute_result (mixedStore fullA fullP predA predP inp)
      rand 10 3 none) 0 = some 0 ∧
    nodeScoreOf (compute_result (mixedStore fullA fullP predA predP inp)
      rand 10 3 none) 0 = some 0 ∧
    hasMsgIn (compute_result (mixedStore fullA fullP predA predP inp)
      rand 10 3 none) 0 "lookup_error" = true ∧
    nodeSuccessOf (compute_result (mixedStore fullA fullP predA predP inp)
      rand 10 3 none) 1 = some 0 ∧
    nodeScoreOf (compute_result (mixedStore fullA fullP predA predP inp)
      rand 10 3 none) 1 = some 0 ∧
    hasMsgIn (compute_result (mixedStore fullA fullP predA predP inp)
      rand 10 3 none) 1 "lookup_error" = true :=
  ⟨rfl, rfl, rfl, rfl, rfl, rfl, rfl, rfl, rfl⟩

end Lemoneval
